import Mathlib

/-!
Verification of the heterogeneous attribute extraction engine of
script/fetch_character_details.py (Genshin-Codex-api).

The Python source is shallowly embedded: JSON documents become the
inductive type Json, Python dicts become insertion-ordered association
lists, Python truthiness and the dynamic error behaviour of the source
(ValueError caught by the orchestrator, AttributeError/TypeError/KeyError
aborting the batch) are modelled explicitly with Except.  Calls into the
Python standard library (html.unescape, json.loads, json.dumps, str(),
int(), regular expression substitution) are modelled by executable Lean
functions faithful to the library behaviour on the document fragments the
program manipulates, as noted at each definition.
-/

/-- A JSON value as produced by json.loads.  Numbers are modelled as
integers; the documents handled by the script carry no fractional
numbers.  Python dicts are insertion-ordered lists of key/value pairs
with distinct keys. -/
inductive Json where
  | null : Json
  | bool (b : Bool) : Json
  | num (n : Int) : Json
  | str (s : String) : Json
  | arr (l : List Json) : Json
  | obj (m : List (String × Json)) : Json

mutual

def beqJson : Json → Json → Bool
  | .null, .null => true
  | .bool a, .bool b => a == b
  | .num a, .num b => a == b
  | .str a, .str b => a == b
  | .arr a, .arr b => beqJsonList a b
  | .obj a, .obj b => beqJsonFields a b
  | _, _ => false

def beqJsonList : List Json → List Json → Bool
  | [], [] => true
  | a :: s, b :: t => beqJson a b && beqJsonList s t
  | _, _ => false

def beqJsonFields : List (String × Json) → List (String × Json) → Bool
  | [], [] => true
  | (k, a) :: s, (k2, b) :: t => k == k2 && beqJson a b && beqJsonFields s t
  | _, _ => false

end

mutual

theorem beqJson_iff : ∀ a b : Json, beqJson a b = true ↔ a = b
  | .null, b => by cases b <;> simp [beqJson]
  | .bool x, b => by cases b <;> simp [beqJson]
  | .num x, b => by cases b <;> simp [beqJson]
  | .str x, b => by cases b <;> simp [beqJson]
  | .arr l, b => by
    cases b <;> simp [beqJson]
    exact beqJsonList_iff l _
  | .obj m, b => by
    cases b <;> simp [beqJson]
    exact beqJsonFields_iff m _

theorem beqJsonList_iff : ∀ a b : List Json, beqJsonList a b = true ↔ a = b
  | [], b => by cases b <;> simp [beqJsonList]
  | x :: s, b => by
    cases b with
    | nil => simp [beqJsonList]
    | cons y t =>
      simp [beqJsonList, Bool.and_eq_true, beqJson_iff x y, beqJsonList_iff s t]

theorem beqJsonFields_iff : ∀ a b : List (String × Json), beqJsonFields a b = true ↔ a = b
  | [], b => by cases b <;> simp [beqJsonFields]
  | (k, x) :: s, b => by
    cases b with
    | nil => simp [beqJsonFields]
    | cons y t =>
      obtain ⟨k2, y⟩ := y
      simp [beqJsonFields, Bool.and_eq_true, beqJson_iff x y, beqJsonFields_iff s t,
        and_assoc, Prod.ext_iff]

end

instance : DecidableEq Json := fun a b => decidable_of_iff _ (beqJson_iff a b)

/-- Python truthiness: None, False, 0, "", [], and \x7b\x7d are falsy. -/
def truthy : Json → Bool
  | .null => false
  | .bool b => b
  | .num n => n != 0
  | .str s => s != ""
  | .arr l => !l.isEmpty
  | .obj m => !m.isEmpty

/-- Lookup of a key in an insertion-ordered dict (first occurrence). -/
def dictLookup {α β : Type} [DecidableEq α] : List (α × β) → α → Option β
  | [], _ => none
  | (k, v) :: t, a => if k = a then some v else dictLookup t a

/-- Python dict assignment d[k] = v: replaces the value in place if the
key is present, appends at the end otherwise. -/
def dictInsert {α β : Type} [DecidableEq α] : List (α × β) → α → β → List (α × β)
  | [], k, v => [(k, v)]
  | (k2, v2) :: t, k, v => if k2 = k then (k2, v) :: t else (k2, v2) :: dictInsert t k v

/-- Python dict.setdefault(k, v): inserts at the end only when the key
is absent. -/
def dictSetdefault {α β : Type} [DecidableEq α] (m : List (α × β)) (k : α) (v : β) :
    List (α × β) :=
  match dictLookup m k with
  | some _ => m
  | none => m ++ [(k, v)]

/-- Python obj.get(k): None when the key is absent (receiver known to be
a dict). -/
def Json.getN (j : Json) (k : String) : Json :=
  match j with
  | .obj m => (dictLookup m k).getD .null
  | _ => .null

/-- Python expression a or b under truthiness. -/
def pyOr (a b : Json) : Json := if truthy a then a else b

/-- Python str() on the scalar values the script stringifies
(json.dumps is used separately for containers). -/
def pyStr : Json → String
  | .null => "None"
  | .bool true => "True"
  | .bool false => "False"
  | .num n => toString n
  | .str s => s
  | .arr _ => "<list>"
  | .obj _ => "<dict>"

/-- Escaping of one character inside a JSON string literal, as done by
json.dumps with ensure_ascii=False. -/
def jsonEscapeChar (c : Char) : String :=
  if c = '"' then "\\\""
  else if c = '\\' then "\\\\"
  else if c = '\n' then "\\n"
  else if c = '\t' then "\\t"
  else if c = '\r' then "\\r"
  else String.singleton c

/-- Serialisation of a JSON string literal in the style of json.dumps. -/
def jsonDumpStr (s : String) : String :=
  "\"" ++ String.join (s.toList.map jsonEscapeChar) ++ "\""

mutual

/-- Model of json.dumps(value, ensure_ascii=False): default separators,
used by the script only as a last-resort stringification of an
unexpected mapping. -/
def jsonDumps : Json → String
  | .null => "null"
  | .bool true => "true"
  | .bool false => "false"
  | .num n => toString n
  | .str s => jsonDumpStr s
  | .arr l => "[" ++ jsonDumpsList l ++ "]"
  | .obj m => String.singleton '{' ++ jsonDumpsFields m ++ String.singleton '}'

def jsonDumpsList : List Json → String
  | [] => ""
  | [j] => jsonDumps j
  | j :: t => jsonDumps j ++ ", " ++ jsonDumpsList t

def jsonDumpsFields : List (String × Json) → String
  | [] => ""
  | [(k, v)] => jsonDumpStr k ++ ": " ++ jsonDumps v
  | (k, v) :: t => jsonDumpStr k ++ ": " ++ jsonDumps v ++ ", " ++ jsonDumpsFields t

end

mutual

/-- Source _to_text: lists are recursively stringified and the non-empty
parts joined with newline; dicts are reduced to their first present
text-bearing key, else serialised; None becomes ""; scalars go through
str(). -/
def toText : Json → String
  | .arr l => String.intercalate "\n" ((toTextList l).filter (fun p => p ≠ ""))
  | .obj m =>
    match firstTextKey m ["text", "content", "desc", "description", "value"] with
    | some s => s
    | none => jsonDumps (.obj m)
  | .null => ""
  | v => pyStr v

def toTextList : List Json → List String
  | [] => []
  | j :: t => toText j :: toTextList t

/-- Helper for the dict case of _to_text: the first key of the candidate
list that is present with a string value. -/
def firstTextKey (m : List (String × Json)) : List String → Option String
  | [] => none
  | k :: t =>
    match dictLookup m k with
    | some (.str s) => some s
    | _ => firstTextKey m t

end

/-- Emission guard of _find_items_with_kv at one dict node: a pair is
produced when both "name" and "value" keys are present, the name is a
string and the value is not None. -/
def kvEmit (p : List String × List (String × Json)) :
    Option (List String × String × String) :=
  match dictLookup p.2 "name", dictLookup p.2 "value" with
  | some (.str n), some v => if v = .null then none else some (p.1, n, toText v)
  | _, _ => none

mutual

/-- Source _find_items_with_kv: recursive walk collecting (path, name,
value-text) triples at every dict exposing a string "name" and a
non-None "value"; list elements keep the current path, dict values
extend it with the key. -/
def findItemsWithKv : Json → List String → List (List String × String × String)
  | .arr l, p => findItemsWithKvList l p
  | .obj m, p =>
    (match kvEmit (p, m) with
     | some t => [t]
     | none => []) ++ findItemsWithKvFields m p
  | _, _ => []

def findItemsWithKvList : List Json → List String → List (List String × String × String)
  | [], _ => []
  | j :: t, p => findItemsWithKv j p ++ findItemsWithKvList t p

def findItemsWithKvFields : List (String × Json) → List String →
    List (List String × String × String)
  | [], _ => []
  | (k, v) :: t, p => findItemsWithKv v (p ++ [k]) ++ findItemsWithKvFields t p

end

mutual

/-- Enumeration, in the traversal order of _find_items_with_kv, of every
dict node of the tree together with the path at which the walk visits
it: each dict is listed before its children, list elements keep the
current path, dict values extend it with the key. -/
def dictNodes : Json → List String → List (List String × List (String × Json))
  | .arr l, p => dictNodesList l p
  | .obj m, p => (p, m) :: dictNodesFields m p
  | _, _ => []

def dictNodesList : List Json → List String → List (List String × List (String × Json))
  | [], _ => []
  | j :: t, p => dictNodes j p ++ dictNodesList t p

def dictNodesFields : List (String × Json) → List String →
    List (List String × List (String × Json))
  | [], _ => []
  | (k, v) :: t, p => dictNodes v (p ++ [k]) ++ dictNodesFields t p

end

mutual

theorem findItemsWithKv_characterisation (j : Json) (p : List String) :
    findItemsWithKv j p = (dictNodes j p).filterMap kvEmit := by
  cases j with
  | arr l => simpa [findItemsWithKv, dictNodes] using findItemsWithKvList_characterisation l p
  | obj m =>
    have h := findItemsWithKvFields_characterisation m p
    cases hk : kvEmit (p, m) with
    | none => simp [findItemsWithKv, dictNodes, List.filterMap_cons, hk, h]
    | some t => simp [findItemsWithKv, dictNodes, List.filterMap_cons, hk, h]
  | null => rfl
  | bool b => rfl
  | num n => rfl
  | str s => rfl

theorem findItemsWithKvList_characterisation (l : List Json) (p : List String) :
    findItemsWithKvList l p = (dictNodesList l p).filterMap kvEmit := by
  cases l with
  | nil => rfl
  | cons j t =>
    simp [findItemsWithKvList, dictNodesList, List.filterMap_append,
      findItemsWithKv_characterisation j p, findItemsWithKvList_characterisation t p]

theorem findItemsWithKvFields_characterisation (m : List (String × Json)) (p : List String) :
    findItemsWithKvFields m p = (dictNodesFields m p).filterMap kvEmit := by
  cases m with
  | nil => rfl
  | cons kv t =>
    simp [findItemsWithKvFields, dictNodesFields, List.filterMap_append,
      findItemsWithKv_characterisation kv.2 (p ++ [kv.1]),
      findItemsWithKvFields_characterisation t p]

end

/-- Whitespace class of Python re \s on str patterns and of str.strip,
restricted to the whitespace code points occurring in the wiki
documents (ASCII whitespace, no-break space, ideographic space). -/
def isPySpace (c : Char) : Bool :=
  c = ' ' || c = '\t' || c = '\n' || c = '\r' ||
  c = '\x0b' || c = '\x0c' || c = ' ' || c = '　'

/-- Generic driver for a left-to-right, non-overlapping regex
substitution in the style of re.sub: at each position the matcher is
tried; on a match (which always consumes at least one character) the
replacement is emitted and scanning resumes after the matched text,
never inside the replacement. -/
def scanSub (m : List Char → Option (String × List Char)) :
    Nat → List Char → List Char
  | 0, _ => []
  | _, [] => []
  | fuel + 1, c :: rest =>
    match m (c :: rest) with
    | some (rep, rem) => rep.toList ++ scanSub m fuel rem
    | none => c :: scanSub m fuel rest

/-- Run of a substitution over a whole string; the fuel is the length,
enough since every step consumes at least one input character. -/
def runSub (m : List Char → Option (String × List Char)) (s : String) : String :=
  (scanSub m s.toList.length s.toList).asString

/-- Matching of a literal prefix, returning the remainder. -/
def matchLit : List Char → List Char → Option (List Char)
  | [], rest => some rest
  | _, [] => none
  | l :: lt, c :: rest => if c = l then matchLit lt rest else none

/-- First matching (entity-text, replacement) among a candidate list. -/
def matchFirstLit (cands : List (List Char × String)) (cs : List Char) :
    Option (String × List Char) :=
  match cands with
  | [] => none
  | (lit, rep) :: t =>
    match matchLit lit cs with
    | some rem => some (rep, rem)
    | none => matchFirstLit t cs

/-- Character reference table of the html.unescape model: the named and
numeric entities occurring in the wiki documents, longest form first so
that the semicolon-terminated spelling wins, as in the HTML5 longest
match rule applied by html.unescape. -/
def entityTable : List (List Char × String) :=
  [("&amp;".toList, "&"), ("&lt;".toList, "<"), ("&gt;".toList, ">"),
   ("&quot;".toList, "\""), ("&#39;".toList, "'"), ("&nbsp;".toList, " "),
   ("&amp".toList, "&"), ("&lt".toList, "<"), ("&gt".toList, ">"),
   ("&quot".toList, "\""), ("&nbsp".toList, " ")]

/-- Conversion of a numeric character reference value, as chr() does for
valid scalar values. -/
def charOfCodepoint (n : Nat) : Char :=
  if n < 0xd800 ∨ (0xe000 ≤ n ∧ n < 0x110000) then
    Char.ofNat n
  else
    '�'

/-- Matcher for one character reference at the head of the input:
named entities from the table, then decimal &#NNN and hexadecimal
&#xHH references with optional terminating semicolon. -/
def tryEntity (cs : List Char) : Option (String × List Char) :=
  match cs with
  | '&' :: '#' :: rest =>
    match rest with
    | 'x' :: r2 =>
      let digits := r2.takeWhile (fun c => c.isDigit || ('a' ≤ c && c ≤ 'f') || ('A' ≤ c && c ≤ 'F'))
      if digits.isEmpty then none
      else
        let r3 := r2.drop digits.length
        let r4 := match r3 with | ';' :: t => t | _ => r3
        let n := digits.foldl (fun a c =>
          a * 16 + (if c.isDigit then c.toNat - 48
                    else if 'a' ≤ c then c.toNat - 87 else c.toNat - 55)) 0
        some ((charOfCodepoint n).toString, r4)
    | _ =>
      let digits := rest.takeWhile Char.isDigit
      if digits.isEmpty then none
      else
        let r3 := rest.drop digits.length
        let r4 := match r3 with | ';' :: t => t | _ => r3
        let n := digits.foldl (fun a c => a * 10 + (c.toNat - 48)) 0
        some ((charOfCodepoint n).toString, r4)
  | '&' :: _ => matchFirstLit entityTable cs
  | _ => none

/-- Model of html.unescape restricted to the character references of
entityTable and numeric references; an ampersand starting no recognised
reference is left in place, and replacements are never rescanned. -/
def htmlUnescape (s : String) : String :=
  runSub tryEntity s

/-- ASCII lower casing of one character, for the re.I tag patterns. -/
def asciiLower (c : Char) : Char :=
  if 'A' ≤ c && c ≤ 'Z' then Char.ofNat (c.toNat + 32) else c

/-- Matcher for the pattern <br\s*/?> with re.I. -/
def tryBr (cs : List Char) : Option (String × List Char) :=
  match cs with
  | '<' :: c1 :: c2 :: rest =>
    if asciiLower c1 = 'b' && asciiLower c2 = 'r' then
      let r2 := rest.dropWhile isPySpace
      let r3 := match r2 with | '/' :: t => t | _ => r2
      match r3 with
      | '>' :: rem => some ("\n", rem)
      | _ => none
    else none
  | _ => none

/-- Matcher for the pattern </p\s*> with re.I. -/
def tryPClose (cs : List Char) : Option (String × List Char) :=
  match cs with
  | '<' :: '/' :: c1 :: rest =>
    if asciiLower c1 = 'p' then
      match rest.dropWhile isPySpace with
      | '>' :: rem => some ("", rem)
      | _ => none
    else none
  | _ => none

/-- Matcher for the pattern <[^>]+>: an opening angle bracket, at least
one character other than a closing bracket, then the closing bracket. -/
def tryTag (cs : List Char) : Option (String × List Char) :=
  match cs with
  | '<' :: rest =>
    let body := rest.takeWhile (fun c => c ≠ '>')
    if body.isEmpty then none
    else
      match rest.drop body.length with
      | '>' :: rem => some ("", rem)
      | _ => none
  | _ => none

/-- Matcher replacing a fixed literal, for the two str.replace calls. -/
def tryLit (lit : List Char) (rep : String) (cs : List Char) :
    Option (String × List Char) :=
  (matchLit lit cs).map (fun rem => (rep, rem))

/-- Python str.replace(lit, rep): left-to-right non-overlapping. -/
def replaceLit (lit rep : String) (s : String) : String :=
  runSub (tryLit lit.toList rep) s

/-- Matcher for the boilerplate pattern \[?\s*详情\s*\]?: an optional
opening square bracket, optional whitespace, the marker, optional
whitespace, an optional closing square bracket. -/
def tryDetailMark (cs : List Char) : Option (String × List Char) :=
  let s1 := match cs with | '[' :: t => t | _ => cs
  let s2 := s1.dropWhile isPySpace
  match s2 with
  | '详' :: '情' :: r =>
    let r2 := r.dropWhile isPySpace
    let r3 := match r2 with | ']' :: t => t | _ => r2
    some ("", r3)
  | _ => none

/-- Matcher for the pattern [ \t\r\f\v]+ (horizontal whitespace,
newline excluded), replaced by a single space. -/
def tryHSpace (cs : List Char) : Option (String × List Char) :=
  match cs with
  | c :: _ =>
    if c = ' ' || c = '\t' || c = '\r' || c = '\x0c' || c = '\x0b' then
      let run := cs.takeWhile (fun d => d = ' ' || d = '\t' || d = '\r' || d = '\x0c' || d = '\x0b')
      some (" ", cs.drop run.length)
    else none
  | [] => none

/-- Matcher for the pattern \n\s*\n+: a whitespace run starting with a
newline and containing at least a second newline, matched up to its
last newline (greedy \s* backtracking into a final \n+), replaced by a
single newline. -/
def tryBlankLines (cs : List Char) : Option (String × List Char) :=
  match cs with
  | '\n' :: _ =>
    let run := cs.takeWhile isPySpace
    let trailing := run.reverse.takeWhile (fun c => c ≠ '\n')
    let matchedLen := run.length - trailing.length
    if matchedLen ≥ 2 then
      some ("\n", trailing.reverse ++ cs.drop run.length)
    else none
  | _ => none

/-- Python str.strip(): removal of leading and trailing whitespace. -/
def pyStrip (s : String) : String :=
  ((s.toList.dropWhile isPySpace).reverse.dropWhile isPySpace).reverse.asString

/-- Source _strip_html, the text normaliser: empty (falsy) input comes
back empty; otherwise entities are unescaped twice, break and closing
paragraph tags become newlines, remaining tags are stripped twice, both
spellings of the no-break space become plain spaces, the bracketed
see-more marker is removed, horizontal whitespace runs collapse to one
space, blank line runs collapse to one newline, and the result is
stripped. -/
def stripHtml (text : String) : String :=
  if text = "" then ""
  else
    let s := htmlUnescape (htmlUnescape text)
    let s := runSub tryBr s
    let s := runSub tryPClose s
    let s := runSub tryTag (runSub tryTag s)
    let s := replaceLit "\\u00a0" " " s
    let s := replaceLit " " " " s
    let s := runSub tryDetailMark s
    let s := runSub tryHSpace s
    let s := runSub tryBlankLines s
    pyStrip s

/-- C5 (code bug): the text normaliser is not idempotent.  Removing the
see-more marker from the input made of the four characters
详, 详, 情, 情 splices the surviving first and last characters into a
fresh occurrence of the marker, which a second normalisation pass then
removes: one pass yields the marker itself, two passes yield the empty
string. -/
theorem c5_normaliser_not_idempotent :
    stripHtml "详详情情" = "详情" ∧
    stripHtml (stripHtml "详详情情") = "" ∧
    stripHtml (stripHtml "详详情情") ≠ stripHtml "详详情情" := by
  refine ⟨by decide, by decide, by decide⟩

/-- Dynamic errors of the embedded Python: ve models ValueError (caught
by the orchestrator's per-identifier handler), crash models the
uncaught classes (AttributeError, TypeError, KeyError, IndexError)
that abort the whole batch. -/
inductive PyErr where
  | ve : PyErr
  | crash : PyErr
deriving DecidableEq

instance {ε α : Type} [DecidableEq ε] [DecidableEq α] : DecidableEq (Except ε α) :=
  fun x y =>
  match x, y with
  | .ok a, .ok b =>
    if h : a = b then isTrue (by rw [h])
    else isFalse (by intro hc; cases hc; exact h rfl)
  | .error a, .error b =>
    if h : a = b then isTrue (by rw [h])
    else isFalse (by intro hc; cases hc; exact h rfl)
  | .ok _, .error _ => isFalse (by intro hc; cases hc)
  | .error _, .ok _ => isFalse (by intro hc; cases hc)

/-- Python obj.get(k, d) where the receiver must be a dict: a non-dict
receiver raises AttributeError. -/
def pyGetDE (j : Json) (k : String) (d : Json) : Except PyErr Json :=
  match j with
  | .obj m => .ok ((dictLookup m k).getD d)
  | _ => .error .crash

/-- Python iteration over a value: lists yield elements, dicts their
keys, strings their characters; other values raise TypeError. -/
def pyIter (j : Json) : Except PyErr (List Json) :=
  match j with
  | .arr l => .ok l
  | .obj m => .ok (m.map (fun kv => .str kv.1))
  | .str s => .ok (s.toList.map (fun c => .str c.toString))
  | _ => .error .crash

/-- Python v[0] on the truthy row values the script indexes. -/
def pyIndex0 : Json → Except PyErr Json
  | .arr (x :: _) => .ok x
  | .str s =>
    match s.toList with
    | c :: _ => .ok (.str c.toString)
    | [] => .error .crash
  | _ => .error .crash

/-- Python v[1]. -/
def pyIndex1 : Json → Except PyErr Json
  | .arr (_ :: x :: _) => .ok x
  | .str s =>
    match s.toList with
    | _ :: c :: _ => .ok (.str c.toString)
    | _ => .error .crash
  | _ => .error .crash

/-- Python len(). -/
def pyLen : Json → Except PyErr Nat
  | .arr l => .ok l.length
  | .str s => .ok s.length
  | .obj m => .ok m.length
  | _ => .error .crash

/-- A value passed where the callee requires str (TypeError otherwise,
as _strip_html does on a non-string argument). -/
def pyStrArg : Json → Except PyErr String
  | .str s => .ok s
  | _ => .error .crash

def isDict : Json → Bool
  | .obj _ => true
  | _ => false

/-- Emission of _collect_named_sections for one dict element of an
all-dict list: name is get("name") or get("title"), description the
first truthy of desc/description/text/content; a pair is appended when
the name is a string and the description is not None. -/
def nsEmit (m : List (String × Json)) (p : List String) :
    List (List String × String × String) :=
  let name := pyOr (Json.getN (.obj m) "name") (Json.getN (.obj m) "title")
  let desc := pyOr (pyOr (pyOr (Json.getN (.obj m) "desc") (Json.getN (.obj m) "description"))
    (Json.getN (.obj m) "text")) (Json.getN (.obj m) "content")
  match name with
  | .str n => if desc = .null then [] else [(p, n, toText desc)]
  | _ => []

def nsEmitList : List Json → List String → List (List String × String × String)
  | [], _ => []
  | .obj m :: t, p => nsEmit m p ++ nsEmitList t p
  | _ :: t, p => nsEmitList t p

mutual

/-- Source _collect_named_sections: a non-empty list whose elements are
all dicts first emits one pair per element exposing a string name/title
along with a non-None description, then the walk recurses into every
element with the unchanged path; dict values are walked with the key
appended to the path. -/
def collectNamedSections : Json → List String → List (List String × String × String)
  | .arr l, p =>
    (if !l.isEmpty && l.all isDict then nsEmitList l p else []) ++
      collectNamedSectionsList l p
  | .obj m, p => collectNamedSectionsFields m p
  | _, _ => []

def collectNamedSectionsList : List Json → List String →
    List (List String × String × String)
  | [], _ => []
  | j :: t, p => collectNamedSections j p ++ collectNamedSectionsList t p

def collectNamedSectionsFields : List (String × Json) → List String →
    List (List String × String × String)
  | [], _ => []
  | (k, v) :: t, p => collectNamedSections v (p ++ [k]) ++ collectNamedSectionsFields t p

end

/-- Key scan of _find_first_string on one dict: the first candidate key
present with a string value (even an empty one is returned here). -/
def ffsKeys (m : List (String × Json)) : List String → Option String
  | [] => none
  | k :: t =>
    match dictLookup m k with
    | some (.str s) => some s
    | _ => ffsKeys m t

mutual

/-- Source _find_first_string: on a dict, a direct candidate key with a
string value wins; otherwise the values, then list elements, are
searched recursively and the first non-empty (truthy) result is
returned; the empty string signals not found. -/
def findFirstString : Json → List String → String
  | .obj m, keys =>
    match ffsKeys m keys with
    | some s => s
    | none => findFirstStringVals m keys
  | .arr l, keys => findFirstStringList l keys
  | _, _ => ""

def findFirstStringVals : List (String × Json) → List String → String
  | [], _ => ""
  | (_, v) :: t, keys =>
    let f := findFirstString v keys
    if f ≠ "" then f else findFirstStringVals t keys

def findFirstStringList : List Json → List String → String
  | [], _ => ""
  | j :: t, keys =>
    let f := findFirstString j keys
    if f ≠ "" then f else findFirstStringList t keys

end

/-- Whitespace skipped by the JSON grammar. -/
def jsonWs (cs : List Char) : List Char :=
  cs.dropWhile (fun c => c = ' ' || c = '\t' || c = '\n' || c = '\r')

/-- One character of a JSON string literal body, with the escape
sequences of the grammar (no surrogate-pair recombination; the
documents the script decodes carry none). -/
def jsonParseStr : Nat → List Char → Option (String × List Char)
  | 0, _ => none
  | _, [] => none
  | fuel + 1, c :: rest =>
    if c = '"' then some ("", rest)
    else if c = '\\' then
      match rest with
      | e :: r2 =>
        let dec : Option (Char × List Char) :=
          if e = '"' then some ('"', r2)
          else if e = '\\' then some ('\\', r2)
          else if e = '/' then some ('/', r2)
          else if e = 'n' then some ('\n', r2)
          else if e = 't' then some ('\t', r2)
          else if e = 'r' then some ('\r', r2)
          else if e = 'b' then some ('\x08', r2)
          else if e = 'f' then some ('\x0c', r2)
          else if e = 'u' then
            match r2 with
            | a :: b :: cc :: d :: r3 =>
              let hexVal := fun (x : Char) =>
                if x.isDigit then some (x.toNat - 48)
                else if 'a' ≤ x && x ≤ 'f' then some (x.toNat - 87)
                else if 'A' ≤ x && x ≤ 'F' then some (x.toNat - 55)
                else none
              match hexVal a, hexVal b, hexVal cc, hexVal d with
              | some ha, some hb, some hc, some hd =>
                some (charOfCodepoint (((ha * 16 + hb) * 16 + hc) * 16 + hd), r3)
              | _, _, _, _ => none
            | _ => none
          else none
        match dec with
        | some (ch, r2) =>
          match jsonParseStr fuel r2 with
          | some (s, r3) => some (ch.toString ++ s, r3)
          | none => none
        | none => none
      | [] => none
    else
      match jsonParseStr fuel rest with
      | some (s, r3) => some (c.toString ++ s, r3)
      | none => none

mutual

/-- Recursive-descent value parser modelling json.loads on the decoded
payloads of the wiki documents: null, booleans, integer numbers,
strings, arrays and objects; fractional numbers are absent from those
payloads and unsupported here. -/
def jsonParseVal : Nat → List Char → Option (Json × List Char)
  | 0, _ => none
  | fuel + 1, cs =>
    match jsonWs cs with
    | [] => none
    | c :: rest =>
      if c = 'n' then
        (matchLit "ull".toList rest).map (fun r => (.null, r))
      else if c = 't' then
        (matchLit "rue".toList rest).map (fun r => (.bool true, r))
      else if c = 'f' then
        (matchLit "alse".toList rest).map (fun r => (.bool false, r))
      else if c = '"' then
        (jsonParseStr fuel rest).map (fun p => (.str p.1, p.2))
      else if c = '-' || c.isDigit then
        let (sign, digits0) : Int × List Char := if c = '-' then (-1, rest) else (1, c :: rest)
        let digits := digits0.takeWhile Char.isDigit
        if digits.isEmpty then none
        else
          let r2 := digits0.drop digits.length
          match r2 with
          | '.' :: _ => none
          | 'e' :: _ => none
          | 'E' :: _ => none
          | _ => some (.num (sign * (digits.foldl (fun a d => a * 10 + (d.toNat - 48)) 0 : Nat)), r2)
      else if c = '[' then
        match jsonWs rest with
        | ']' :: r2 => some (.arr [], r2)
        | _ =>
          match jsonParseElems fuel rest with
          | some (l, r2) => some (.arr l, r2)
          | none => none
      else if c = '{' then
        match jsonWs rest with
        | '}' :: r2 => some (.obj [], r2)
        | _ =>
          match jsonParseMembers fuel rest with
          | some (m, r2) => some (.obj m, r2)
          | none => none
      else none

def jsonParseElems : Nat → List Char → Option (List Json × List Char)
  | 0, _ => none
  | fuel + 1, cs =>
    match jsonParseVal fuel cs with
    | some (j, r) =>
      match jsonWs r with
      | ',' :: r2 =>
        match jsonParseElems fuel r2 with
        | some (l, r3) => some (j :: l, r3)
        | none => none
      | ']' :: r2 => some ([j], r2)
      | _ => none
    | none => none

def jsonParseMembers : Nat → List Char → Option (List (String × Json) × List Char)
  | 0, _ => none
  | fuel + 1, cs =>
    match jsonWs cs with
    | '"' :: r =>
      match jsonParseStr fuel r with
      | some (k, r2) =>
        match jsonWs r2 with
        | ':' :: r3 =>
          match jsonParseVal fuel r3 with
          | some (v, r4) =>
            match jsonWs r4 with
            | ',' :: r5 =>
              match jsonParseMembers fuel r5 with
              | some (m, r6) => some ((k, v) :: m, r6)
              | none => none
            | '}' :: r5 => some ([(k, v)], r5)
            | _ => none
          | none => none
        | _ => none
      | none => none
    | _ => none

end

/-- Model of json.loads: none models JSONDecodeError. -/
def jsonLoads (s : String) : Option Json :=
  match jsonParseVal (s.length + 1) s.toList with
  | some (j, rem) => if jsonWs rem = [] then some j else none
  | none => none

/-- Escape-character repair of _safe_json_loads and
_parse_fe_ext_filters: escaped quotes become quotes, then doubled
backslashes become single ones. -/
def pyRepair (s : String) : String :=
  replaceLit "\\\\" "\\" (replaceLit "\\\"" "\"" s)

/-- Source _safe_json_loads: non-strings pass through; a string is
decoded directly, then after one repair pass, then, entity-unescaped
after the second repair pass; on total failure the original value is
returned. -/
def safeJsonLoads (v : Json) : Json :=
  match v with
  | .str s =>
    match jsonLoads s with
    | some j => j
    | none =>
      let s1 := pyRepair s
      match jsonLoads s1 with
      | some j => j
      | none =>
        match jsonLoads (htmlUnescape (pyRepair s1)) with
        | some j => j
        | none => v
  | _ => v

mutual

/-- Filter-text harvesting walk of _parse_fe_ext_filters: every dict
carrying a dict-valued "filter" field that exposes a "text" key
contributes that text payload, and the walk continues into all
values. -/
def feWalk : Json → List Json
  | .obj m =>
    (match dictLookup m "filter" with
     | some (.obj fm) =>
       match dictLookup fm "text" with
       | some t => [t]
       | none => []
     | _ => []) ++ feWalkFields m
  | .arr l => feWalkList l
  | _ => []

def feWalkList : List Json → List Json
  | [] => []
  | j :: t => feWalk j ++ feWalkList t

def feWalkFields : List (String × Json) → List Json
  | [] => []
  | (_, v) :: t => feWalk v ++ feWalkFields t

end

/-- Split at the first slash, as item.split("/", 1). -/
def splitSlash : List Char → Option (List Char × List Char)
  | [] => none
  | '/' :: t => some ([], t)
  | c :: t => (splitSlash t).map (fun p => (c :: p.1, p.2))

/-- Tag accumulation of _parse_fe_ext_filters over the items of one
decoded text payload: string items containing a slash are split at the
first slash and recorded first-occurrence-wins when both halves are
non-empty. -/
def feAddItems (filters : List (String × String)) : List Json → List (String × String)
  | [] => filters
  | .str s :: t =>
    (match splitSlash s.toList with
     | some (k, v) =>
       let key := k.asString
       let value := v.asString
       if key ≠ "" && value ≠ "" && (dictLookup filters key).isNone then
         feAddItems (filters ++ [(key, value)]) t
       else feAddItems filters t
     | none => feAddItems filters t)
  | _ :: t => feAddItems filters t

/-- Decoding of the collected text payloads: lists are taken as they
are, strings are decoded directly or after entity unescaping, anything
else is dropped; falsy results are skipped and the items of the
surviving payloads feed the tag accumulator. -/
def feFiltersOfTexts (filters : List (String × String)) :
    List Json → Except PyErr (List (String × String))
  | [] => .ok filters
  | t :: rest =>
    let arr : Option Json :=
      match t with
      | .arr l => some (.arr l)
      | .str s =>
        match jsonLoads s with
        | some j => some j
        | none =>
          match jsonLoads (htmlUnescape s) with
          | some j => some j
          | none => none
      | _ => none
    match arr with
    | none => feFiltersOfTexts filters rest
    | some a =>
      if truthy a then
        match pyIter a with
        | .ok items => feFiltersOfTexts (feAddItems filters items) rest
        | .error e => .error e
      else feFiltersOfTexts filters rest

/-- Source _parse_fe_ext_filters: reads page.ext.fe_ext, decodes it when
it is a string (directly, after one repair pass, then entity-unescaped
from the original), walks the resulting dict for filter texts and
accumulates category/value tags first-occurrence-wins; a non-dict
result yields the empty map. -/
def parseFeExtFilters (data : Json) : Except PyErr (List (String × String)) := do
  let d1 ← pyGetDE data "data" (.obj [])
  let page ← pyGetDE d1 "page" (.obj [])
  let ext ← pyGetDE page "ext" (.obj [])
  let feExt ← pyGetDE ext "fe_ext" .null
  let o :=
    match feExt with
    | .str s =>
      match jsonLoads s with
      | some j => j
      | none =>
        match jsonLoads (pyRepair s) with
        | some j => j
        | none =>
          match jsonLoads (htmlUnescape s) with
          | some j => j
          | none => .str s
    | v => v
  match o with
  | .obj m => feFiltersOfTexts [] (feWalk (.obj m))
  | _ => .ok []

/-- Attribute-list emission of _collect_base_info_from_modules: items of
an "attr" list that are dicts with a string key and non-None value. -/
def biAttrItems : List Json → List (String × String)
  | [] => []
  | .obj im :: t =>
    (match dictLookup im "key", dictLookup im "value" with
     | some (.str k), some v => if v = .null then [] else [(k, toText v)]
     | _, _ => []) ++ biAttrItems t
  | _ :: t => biAttrItems t

mutual

/-- Inner walk of _collect_base_info_from_modules: at each dict, the
"attr" list contributes key/value pairs, a direct string "name" with
any present "value" contributes a pair, and the walk continues into all
values and list elements. -/
def biWalk : Json → List (String × String)
  | .obj m =>
    (match dictLookup m "attr" with
     | some (.arr items) => biAttrItems items
     | _ => []) ++
    (match dictLookup m "name", dictLookup m "value" with
     | some (.str n), some v => [(n, toText v)]
     | _, _ => []) ++ biWalkFields m
  | .arr l => biWalkList l
  | _ => []

def biWalkList : List Json → List (String × String)
  | [] => []
  | j :: t => biWalk j ++ biWalkList t

def biWalkFields : List (String × Json) → List (String × String)
  | [] => []
  | (_, v) :: t => biWalk v ++ biWalkFields t

end

/-- Source _collect_base_info_from_modules: for each dict module whose
"components" is a list, each dict component's "data" payload is decoded
by _safe_json_loads and, when the result is a dict or list, walked for
base-info pairs. -/
def collectBaseInfo (modules : Json) : Except PyErr (List (String × String)) := do
  let mods ← pyIter (pyOr modules (.arr []))
  .ok (mods.foldl (fun acc module =>
    match module with
    | .obj mm =>
      match (dictLookup mm "components").getD .null with
      | .arr cl =>
        cl.foldl (fun a comp =>
          match comp with
          | .obj cm =>
            match safeJsonLoads ((dictLookup cm "data").getD .null) with
            | .obj pm => a ++ biWalk (.obj pm)
            | .arr pl => a ++ biWalk (.arr pl)
            | _ => a
          | _ => a) acc
      | _ => acc
    | _ => acc) [])

/-- Source _collect_tables_from_modules: for each dict module whose name
equals the requested module name and whose "components" is a list, each
dict component's decoded "data" that is a dict exposing "tables" has
its (defaulted) tables payload iterated into the accumulated list. -/
def collectTablesFromModules (modules : Json) (moduleName : String) :
    Except PyErr (List Json) := do
  let mods ← pyIter (pyOr modules (.arr []))
  mods.foldlM (fun acc module =>
    match module with
    | .obj mm =>
      if (dictLookup mm "name").getD (.str "") = .str moduleName then
        match (dictLookup mm "components").getD .null with
        | .arr cl =>
          cl.foldlM (fun a comp =>
            match comp with
            | .obj cm =>
              match safeJsonLoads ((dictLookup cm "data").getD .null) with
              | .obj pm =>
                match dictLookup pm "tables" with
                | some tv => do
                  let ts ← pyIter (pyOr tv (.arr []))
                  pure (a ++ ts)
                | none => pure a
              | _ => pure a
            | _ => pure a) acc
        | _ => pure acc
      else pure acc
    | _ => pure acc) []

/-- Row harvesting of _collect_role_talent for one attribute table:
falsy rows are dropped, the first cell of each remaining row is
normalised. -/
def roleRows : List Json → Except PyErr (List String)
  | [] => .ok []
  | row :: t =>
    if truthy row then do
      let c ← pyStrArg (← pyIndex0 row)
      let rest ← roleRows t
      pure (stripHtml c :: rest)
    else roleRows t

/-- Item loop of _collect_role_talent over the decoded "list" payload:
each dict item yields its (possibly non-string) tab name and the
newline-joined, stripped concatenation of its normalised description
and one-column attribute rows; items with a falsy tab name are
dropped. -/
def roleItemsLoop : List Json → Except PyErr (List (Json × String))
  | [] => .ok []
  | item :: t =>
    match item with
    | .obj im => do
      let tabName := pyOr ((dictLookup im "tab_name").getD .null) (.str "")
      let descS ← pyStrArg (pyOr ((dictLookup im "desc").getD .null) (.str ""))
      let desc := stripHtml descS
      let attr := pyOr ((dictLookup im "attr").getD .null) (.obj [])
      let rows ←
        match attr with
        | .obj am => do
          let rws ← pyIter (pyOr ((dictLookup am "row").getD .null) (.arr []))
          roleRows rws
        | _ => pure []
      let detail := pyStrip (String.intercalate "\n" (desc :: rows))
      let rest ← roleItemsLoop t
      if truthy tabName then pure ((tabName, detail) :: rest) else pure rest
    | _ => roleItemsLoop t

/-- Source _collect_role_talent: scans the modules named 天赋 for
components with component_id "role_talent", decodes their data and runs
the item loop over the "list" payload. -/
def collectRoleTalent (modules : Json) : Except PyErr (List (Json × String)) := do
  let mods ← pyIter (pyOr modules (.arr []))
  mods.foldlM (fun acc module =>
    match module with
    | .obj mm =>
      if (dictLookup mm "name").getD .null = .str "天赋" then
        match (dictLookup mm "components").getD .null with
        | .arr cl =>
          cl.foldlM (fun a comp =>
            match comp with
            | .obj cm =>
              if (dictLookup cm "component_id").getD .null = .str "role_talent" then
                match safeJsonLoads ((dictLookup cm "data").getD .null) with
                | .obj pm => do
                  let items ← pyIter (pyOr ((dictLookup pm "list").getD .null) (.arr []))
                  let collected ← roleItemsLoop items
                  pure (a ++ collected)
                | _ => pure a
              else pure a
            | _ => pure a) acc
        | _ => pure acc
      else pure acc
    | _ => pure acc) []

mutual

/-- Source _collect_nodule_sections: inner walk emitting (name, text)
pairs at every dict with a string title-or-name and a non-None
content-like field; note the pairs carry no path component. -/
def noduleWalk : Json → List (String × String)
  | .obj m =>
    (let name := pyOr (Json.getN (.obj m) "title") (Json.getN (.obj m) "name")
     let desc := pyOr (pyOr (pyOr (Json.getN (.obj m) "content") (Json.getN (.obj m) "text"))
       (Json.getN (.obj m) "desc")) (Json.getN (.obj m) "description")
     match name with
     | .str n => if desc = .null then [] else [(n, toText desc)]
     | _ => []) ++ noduleWalkFields m
  | .arr l => noduleWalkList l
  | _ => []

def noduleWalkList : List Json → List (String × String)
  | [] => []
  | j :: t => noduleWalk j ++ noduleWalkList t

def noduleWalkFields : List (String × Json) → List (String × String)
  | [] => []
  | (_, v) :: t => noduleWalk v ++ noduleWalkFields t

end

def collectNoduleSections (nodules : Json) : List (String × String) :=
  noduleWalk nodules

/-- An entry of the named_sections working list of _extract_fields: the
triples of _collect_named_sections, or the pairs of
_collect_nodule_sections, which the later triple-unpacking loops can
only consume by raising ValueError. -/
abbrev NSec := (List String × String × String) ⊕ (String × String)

/-- Label-map construction of _extract_fields over the collector output:
pairs with a falsy name or value are skipped, the rest are stored by
plain dict assignment, so a later pair overwrites an earlier one with
the same label. -/
def buildLabelMap (kvs : List (List String × String × String)) : List (String × String) :=
  kvs.foldl (fun m t => if t.2.1 = "" || t.2.2 = "" then m else dictInsert m t.2.1 t.2.2) []

/-- Module base-info merge of _extract_fields: non-falsy pairs are added
with setdefault, never overwriting an existing label. -/
def applyBaseInfo (lm : List (String × String)) (pairs : List (String × String)) :
    List (String × String) :=
  pairs.foldl (fun m p => if p.1 = "" || p.2 = "" then m else dictSetdefault m p.1 p.2) lm

/-- Candidate scan of pick_label over the label map: the first candidate
label present in the map wins. -/
def pickFromMap (lm : List (String × String)) : List String → Option String
  | [] => none
  | c :: t =>
    match dictLookup lm c with
    | some v => some v
    | none => pickFromMap lm t

/-- Section scan of pick_label: the first named-section triple whose
name is a candidate and whose value is truthy wins; encountering a
nodule pair while unpacking raises ValueError. -/
def pickFromSections (cands : List String) : List NSec → Except PyErr String
  | [] => .ok ""
  | .inl (_, n, v) :: t =>
    if n ∈ cands ∧ v ≠ "" then .ok v else pickFromSections cands t
  | .inr _ :: _ => .error .ve

/-- Source pick_label of _extract_fields: label map first, named
sections second, empty string when nothing matches. -/
def pickLabel (cands : List String) (lm : List (String × String)) (ns : List NSec) :
    Except PyErr String :=
  match pickFromMap lm cands with
  | some v => .ok v
  | none => pickFromSections cands ns

/-- Substring test via splitting, used for the path classification of
_extract_fields. -/
def strContains (s pat : String) : Bool :=
  (s.splitOn pat).length != 1

/-- Talent/constellation classification loop of _extract_fields over the
named sections: triples whose lower-cased joined path mentions a talent
marker populate the talents dict by assignment, constellation markers
populate the constellations dict; a nodule pair raises ValueError. -/
def classifySections (tal con : List (Json × String)) :
    List NSec → Except PyErr (List (Json × String) × List (Json × String))
  | [] => .ok (tal, con)
  | .inr _ :: _ => .error .ve
  | .inl (p, n, v) :: t =>
    let pathStr := (String.intercalate "/" p).toLower
    if strContains pathStr "talent" || strContains pathStr "天赋" || strContains pathStr "skill" then
      classifySections (dictInsert tal (.str n) v) con t
    else if strContains pathStr "constellation" || strContains pathStr "命之座" then
      classifySections tal (dictInsert con (.str n) v) t
    else
      classifySections tal con t

/-- Table-row application of _extract_fields for one module-table list:
each truthy row's normalised first cell is the title and its normalised
second cell (when present) the body; rows with an empty title are
dropped, and assignment lets a later row overwrite an earlier one. -/
def applyTalentTables (tals : List (Json × String)) :
    List Json → Except PyErr (List (Json × String))
  | [] => .ok tals
  | table :: t => do
    let rowsJ ← pyGetDE table "row" .null
    let rows ← pyIter (pyOr rowsJ (.arr []))
    let tals2 ← rows.foldlM (fun a row =>
      if truthy row then do
        let c0 ← pyStrArg (← pyIndex0 row)
        let title := stripHtml c0
        let len ← pyLen row
        let body ←
          if len > 1 then do
            let c1 ← pyStrArg (← pyIndex1 row)
            pure (stripHtml c1)
          else pure ""
        if title ≠ "" then pure (dictInsert a (.str title) body) else pure a
      else pure a) tals
    applyTalentTables tals2 t

/-- Role-talent merge of _extract_fields: pairs with truthy title and
non-empty detail are added with setdefault, so an existing entry is
never overwritten; an unhashable title raises TypeError. -/
def applyRoleTalents (tals : List (Json × String)) :
    List (Json × String) → Except PyErr (List (Json × String))
  | [] => .ok tals
  | (k, d) :: t =>
    if truthy k && d != "" then
      match k with
      | .arr _ => .error .crash
      | .obj _ => .error .crash
      | _ => applyRoleTalents (dictSetdefault tals k d) t
    else applyRoleTalents tals t

/-- Fallback step of _extract_fields from the field value picked by
pick_label to the filter-tag map: the filter value is consulted only
when the picked value is empty. -/
def resolveWithFe (v : String) (fe : List (String × String)) (k : String) : String :=
  if v = "" then (dictLookup fe k).getD "" else v

/-- Result record of _extract_fields. -/
structure Fields where
  name : Json
  region : String
  affiliation : String
  visionAffiliation : String
  element : String
  position : String
  weapon : String
  talents : List (Json × String)
  constellations : List (Json × String)
deriving DecidableEq

/-- Source _extract_fields, in the evaluation (and failure) order of the
Python function: collector pairs and label map, named sections extended
with nodule pairs, module base info, the six pick_label calls, the
filter-tag fallbacks (the position field has none), the section
classification, the 天赋 tables, the role-talent merge, the 命之座
tables, and the name resolution. -/
def extractFields (data : Json) : Except PyErr Fields := do
  let kvs := findItemsWithKv data []
  let lm0 := buildLabelMap kvs
  let ns0 : List NSec := (collectNamedSections data []).map Sum.inl
  let d1 ← pyGetDE data "data" (.obj [])
  let page ← pyGetDE d1 "page" (.obj [])
  let nodules := Json.getN page "nodules"
  let ns := ns0 ++ (if truthy nodules then (collectNoduleSections nodules).map Sum.inr else [])
  let modules := pyOr (Json.getN page "modules") (.arr [])
  let basePairs ← collectBaseInfo modules
  let lm := applyBaseInfo lm0 basePairs
  let region0 ← pickLabel ["地区", "所属地区", "国籍"] lm ns
  let affiliation0 ← pickLabel ["所属", "所属势力", "所属机构", "所属城邦", "所属国家"] lm ns
  let vision0 ← pickLabel ["神之眼所属", "神之眼", "元素之眼", "神之眼类型"] lm ns
  let element0 ← pickLabel ["元素", "元素属性"] lm ns
  let position ← pickLabel ["定位", "定位/称号", "称号"] lm ns
  let weapon0 ← pickLabel ["武器", "武器类型", "武器类别"] lm ns
  let fe ← parseFeExtFilters data
  let region := resolveWithFe region0 fe "地区"
  let affiliation := resolveWithFe affiliation0 fe "所属"
  let vision := resolveWithFe vision0 fe "神之眼所属"
  let element := resolveWithFe element0 fe "元素"
  let weapon := resolveWithFe weapon0 fe "武器"
  let (tal0, con0) ← classifySections [] [] ns
  let talTables ← collectTablesFromModules modules "天赋"
  let tal1 ← applyTalentTables tal0 talTables
  let roleItems ← collectRoleTalent modules
  let tal ← applyRoleTalents tal1 roleItems
  let conTables ← collectTablesFromModules modules "命之座"
  let con ← applyTalentTables con0 conTables
  let pageName := Json.getN page "name"
  pure { name := if truthy pageName then pageName else .str (findFirstString data ["name", "title"]),
         region := region, affiliation := affiliation, visionAffiliation := vision,
         element := element, position := position, weapon := weapon,
         talents := tal, constellations := con }

/-- C10: the generic pair collector emits a pair for a mapping node
exposing both "name" and "value" keys only when the name is a string and
the value is non-null; every other mapping node contributes no pair, yet
the traversal still descends into its children.  Formally, the output of
_find_items_with_kv is exactly the filterMap of the per-node emission
guard kvEmit over the full enumeration of dict nodes of the tree, so a
node failing the guard is dropped while all nodes below it are still
visited. -/
theorem c10_collector_characterisation (j : Json) (p : List String) :
    findItemsWithKv j p = (dictNodes j p).filterMap kvEmit :=
  findItemsWithKv_characterisation j p

/-- A successful embedded-Python result, for stating evaluations. -/
def exOk {α : Type} : Except PyErr α → Option α
  | .ok a => some a
  | .error _ => none

theorem dictLookup_append_left {α β : Type} [DecidableEq α] (m l : List (α × β)) (k : α)
    (v : β) (h : dictLookup m k = some v) : dictLookup (m ++ l) k = some v := by
  induction m with
  | nil => cases h
  | cons a t ih =>
    obtain ⟨k2, v2⟩ := a
    by_cases hk : k2 = k
    · simp [dictLookup, hk] at h ⊢
      exact h
    · simp [dictLookup, hk] at h ⊢
      exact ih h

theorem dictLookup_setdefault_of_some {α β : Type} [DecidableEq α] (m : List (α × β))
    (k2 : α) (d : β) (k : α) (v : β) (h : dictLookup m k = some v) :
    dictLookup (dictSetdefault m k2 d) k = some v := by
  unfold dictSetdefault
  cases hl : dictLookup m k2 with
  | some w => exact h
  | none => exact dictLookup_append_left m [(k2, d)] k v h

theorem dictLookup_insert_insert {α β : Type} [DecidableEq α] (m : List (α × β)) (k : α)
    (b1 b2 : β) : dictLookup (dictInsert (dictInsert m k b1) k b2) k = some b2 := by
  induction m with
  | nil => simp [dictInsert, dictLookup]
  | cons a t ih =>
    obtain ⟨k2, v2⟩ := a
    by_cases hk : k2 = k
    · simp [dictInsert, dictLookup, hk]
    · simp [dictInsert, dictLookup, hk]
      exact ih

theorem pickFromMap_append_of_none (lm : List (String × String)) (cs1 : List String)
    (c : String) (cs2 : List String) (v : String)
    (h1 : ∀ c2 ∈ cs1, dictLookup lm c2 = none) (hc : dictLookup lm c = some v) :
    pickFromMap lm (cs1 ++ c :: cs2) = some v := by
  induction cs1 with
  | nil => simp [pickFromMap, hc]
  | cons c2 t ih =>
    have h2 : dictLookup lm c2 = none := h1 c2 (by simp)
    simp only [List.cons_append, pickFromMap, h2]
    exact ih (fun x hx => h1 x (by simp [hx]))

theorem pickFromMap_none (lm : List (String × String)) (cs : List String)
    (h : ∀ c ∈ cs, dictLookup lm c = none) : pickFromMap lm cs = none := by
  induction cs with
  | nil => rfl
  | cons c t ih =>
    have h2 : dictLookup lm c = none := h c (by simp)
    simp only [pickFromMap, h2]
    exact ih (fun x hx => h x (by simp [hx]))

/-- Concrete document for C3: two name/value nodes carrying the same
label 地区 with values X then Y, in that traversal order. -/
def c3doc : Json :=
  .obj [("a", .obj [("name", .str "地区"), ("value", .str "X")]),
        ("b", .obj [("name", .str "地区"), ("value", .str "Y")])]

/-- C3, counterexample: the generic pair collector sees the pair with
value X first and the pair with value Y second, yet field resolution
returns Y — the later pair overwrote the first-seen one in the label
map, refuting first-seen-wins resolution. -/
theorem c3_counterexample :
    findItemsWithKv c3doc [] = [(["a"], "地区", "X"), (["b"], "地区", "Y")] ∧
    (exOk (extractFields c3doc)).map Fields.region = some "Y" := by
  constructor
  · decide
  · decide

/-- C3, amended: when the collected pairs contain multiple pairs with
the same (non-empty) label and non-empty values, the label map keeps
the value of the last-seen pair — plain dict assignment lets later
pairs overwrite earlier ones — and field resolution returns that
last-seen value. -/
theorem c3_amended (p1 p2 : List String) (n v1 v2 : String) (ns : List NSec)
    (hn : n ≠ "") (h1 : v1 ≠ "") (h2 : v2 ≠ "") :
    buildLabelMap [(p1, n, v1), (p2, n, v2)] = [(n, v2)] ∧
    pickLabel [n] (buildLabelMap [(p1, n, v1), (p2, n, v2)]) ns = .ok v2 := by
  have hb : buildLabelMap [(p1, n, v1), (p2, n, v2)] = [(n, v2)] := by
    simp [buildLabelMap, List.foldl, dictInsert, hn, h1, h2]
  refine ⟨hb, ?_⟩
  rw [hb]
  simp [pickLabel, pickFromMap, dictLookup]

theorem c3_amended_witness :
    buildLabelMap [([], "k", "a"), ([], "k", "b")] = [("k", "b")] ∧
    pickLabel ["k"] (buildLabelMap [([], "k", "a"), ([], "k", "b")]) [] = .ok "b" :=
  c3_amended [] [] "k" "a" "b" [] (by decide) (by decide) (by decide)

/-- Concrete 天赋 module for C4: one ability table with two rows sharing
the first-cell label L (bodies b1 then b2) and one role_talent component
producing an entry for the same label L with detail r. -/
def c4module : Json :=
  .obj [("name", .str "天赋"),
        ("components", .arr
          [.obj [("data", .obj [("tables", .arr
            [.obj [("row", .arr [.arr [.str "L", .str "b1"], .arr [.str "L", .str "b2"]])]])])],
           .obj [("component_id", .str "role_talent"),
                 ("data", .obj [("list", .arr
                   [.obj [("tab_name", .str "L"), ("desc", .str "r")]])])]])]

def c4doc : Json :=
  .obj [("data", .obj [("page", .obj [("modules", .arr [c4module])])])]

/-- C4, counterexample: role-talent collection produces an entry for L,
the table carries two rows for L, and the final talents mapping holds
the second table row's body b2 — neither the first row's body nor the
role-talent detail survives, refuting the claimed first-wins outcome. -/
theorem c4_counterexample :
    collectRoleTalent (.arr [c4module]) = .ok [(.str "L", "r")] ∧
    (exOk (extractFields c4doc)).map Fields.talents = some [(.str "L", "b2")] := by
  constructor
  · decide
  · decide

/-- C4, amended: the ability tables are applied before role-talent
collection; among table rows sharing a label the later row's body
overwrites the earlier one by dict assignment, and the role-talent
merge uses setdefault, so it never changes a label already populated —
hence with a duplicated table row and a role-talent entry for the same
label, the final body is the second table row's. -/
theorem c4_amended :
    (∀ (items m m2 : List (Json × String)) (k : Json) (v : String),
        applyRoleTalents m items = .ok m2 → dictLookup m k = some v →
        dictLookup m2 k = some v) ∧
    (∀ (m : List (Json × String)) (k : Json) (b1 b2 : String),
        dictLookup (dictInsert (dictInsert m k b1) k b2) k = some b2) := by
  constructor
  · intro items
    induction items with
    | nil =>
      intro m m2 k v h hl
      simp only [applyRoleTalents] at h
      cases h
      exact hl
    | cons kd t ih =>
      intro m m2 k v h hl
      obtain ⟨kj, d⟩ := kd
      simp only [applyRoleTalents] at h
      by_cases hc : (truthy kj && d != "") = true
      · rw [if_pos hc] at h
        cases kj with
        | arr l => cases h
        | obj o => cases h
        | null => exact ih _ _ _ _ h (dictLookup_setdefault_of_some m .null d k v hl)
        | bool b => exact ih _ _ _ _ h (dictLookup_setdefault_of_some m (.bool b) d k v hl)
        | num x => exact ih _ _ _ _ h (dictLookup_setdefault_of_some m (.num x) d k v hl)
        | str s => exact ih _ _ _ _ h (dictLookup_setdefault_of_some m (.str s) d k v hl)
      · rw [if_neg hc] at h
        exact ih _ _ _ _ h hl
  · intro m k b1 b2
    exact dictLookup_insert_insert m k b1 b2

theorem c4_amended_witness :
    dictLookup [(Json.str "L", "b1")] (.str "L") = some "b1" ∧
    dictLookup (dictInsert (dictInsert [] (Json.str "L") "b1") (.str "L") "b2")
      (.str "L") = some "b2" := by
  constructor
  · exact c4_amended.1 [(.str "L", "r")] [(.str "L", "b1")] [(.str "L", "b1")]
      (.str "L") "b1" (by decide) (by decide)
  · exact c4_amended.2 [] (.str "L") "b1" "b2"

/-- Concrete document for C8: no name/value pair and no named section
anywhere, and a filter tag assigning the category 定位 (the position
field's primary label) the value 主C. -/
def c8doc : Json :=
  .obj [("data", .obj [("page", .obj [("ext", .obj [("fe_ext",
    .obj [("filter", .obj [("text", .arr [.str "定位/主C"])])])])])])]

/-- C8, counterexample: the filter-tag map resolves 定位 to the
non-empty value 主C, yet the position field resolves to the empty
string — the position field never consults the filter-tag map, refuting
the claimed three-stage fallback for every canonical field. -/
theorem c8_counterexample :
    parseFeExtFilters c8doc = .ok [("定位", "主C")] ∧
    (exOk (extractFields c8doc)).map Fields.position = some "" := by
  constructor
  · decide
  · decide

/-- C8, amended: resolution order holds as claimed for the fields that
have a filter fallback (region, affiliation, vision, element, weapon):
the first candidate label present in the label map wins; with no
candidate in the label map, the first named-section triple carrying a
candidate name and a non-empty value wins; the filter-tag key is
consulted exactly when the picked value is empty, and an empty result
is returned without error.  The position field performs only the first
two stages. -/
theorem c8_amended :
    (∀ (cs1 : List String) (c : String) (cs2 : List String)
        (lm : List (String × String)) (ns : List NSec) (v : String),
        (∀ c2 ∈ cs1, dictLookup lm c2 = none) → dictLookup lm c = some v →
        pickLabel (cs1 ++ c :: cs2) lm ns = .ok v) ∧
    (∀ (cs : List String) (lm : List (String × String)) (ns1 : List NSec)
        (p : List String) (n v : String) (ns2 : List NSec),
        (∀ c ∈ cs, dictLookup lm c = none) → n ∈ cs → v ≠ "" →
        (∀ x ∈ ns1, ∃ q m w, x = Sum.inl (q, m, w) ∧ (m ∉ cs ∨ w = "")) →
        pickLabel cs lm (ns1 ++ Sum.inl (p, n, v) :: ns2) = .ok v) ∧
    (∀ (fe : List (String × String)) (k v : String),
        (v = "" → resolveWithFe v fe k = (dictLookup fe k).getD "") ∧
        (v ≠ "" → resolveWithFe v fe k = v)) := by
  refine ⟨?_, ?_, ?_⟩
  · intro cs1 c cs2 lm ns v h1 hc
    simp [pickLabel, pickFromMap_append_of_none lm cs1 c cs2 v h1 hc]
  · intro cs lm ns1 p n v ns2 hm hn hv hns
    have h0 : pickFromMap lm cs = none := pickFromMap_none lm cs hm
    simp only [pickLabel, h0]
    induction ns1 with
    | nil => simp [pickFromSections, hn, hv]
    | cons x t ih =>
      obtain ⟨q, m, w, hx, hmw⟩ := hns x (by simp)
      subst hx
      have hcond : ¬(m ∈ cs ∧ w ≠ "") := by
        rcases hmw with hm2 | hw
        · exact fun hc => hm2 hc.1
        · exact fun hc => hc.2 hw
      simp only [List.cons_append, pickFromSections, if_neg hcond]
      exact ih (fun x hx => hns x (by simp [hx]))
  · intro fe k v
    constructor
    · intro hv
      simp [resolveWithFe, hv]
    · intro hv
      simp [resolveWithFe, hv]

theorem c8_amended_witness :
    pickLabel ["a", "b"] [("b", "v")] [] = .ok "v" ∧
    pickLabel ["c"] [] [Sum.inl ([], "d", "w"), Sum.inl ([], "c", "u")] = .ok "u" ∧
    resolveWithFe "" [("k", "f")] "k" = "f" ∧
    resolveWithFe "x" [("k", "f")] "k" = "x" := by
  refine ⟨?_, ?_, ?_, ?_⟩
  · exact c8_amended.1 ["a"] "b" [] [("b", "v")] [] "v" (by decide) (by decide)
  · exact c8_amended.2.1 ["c"] [] [Sum.inl ([], "d", "w")] [] "c" "u" []
      (by decide) (by simp) (by decide)
      (by
        intro x hx
        refine ⟨[], "d", "w", ?_, ?_⟩
        · simpa using hx
        · left
          decide)
  · exact (c8_amended.2.2 [("k", "f")] "k" "").1 rfl
  · exact (c8_amended.2.2 [("k", "f")] "k" "x").2 (by decide)

/-- Failure classes that fetch_detail can raise: an HTTP error status,
a connection-level URLError, or a JSONDecodeError from a malformed
response body. -/
inductive FetchErr where
  | http (code : Nat) : FetchErr
  | url : FetchErr
  | jsonDecode : FetchErr
deriving DecidableEq

/-- Retryability test of fetch_detail_with_retry for an HTTP status:
the rate-limit status 429 or any 5xx status. -/
def httpRetryable (code : Nat) : Bool :=
  code == 429 || (500 ≤ code && code ≤ 599)

/-- Classification of which failures the retry loop actually retries:
retryable HTTP statuses, and the URLError and JSONDecodeError classes
caught by the second except clause. -/
def isRetryableFailure : FetchErr → Bool
  | .http c => httpRetryable c
  | .url => true
  | .jsonDecode => true

/-- Attempt loop of fetch_detail_with_retry: the oracle gives the
outcome of fetch_detail on each attempt number; a success returns, a
non-retryable HTTP error re-raises immediately, any other failure is
remembered and the next attempt runs; when no attempts remain the last
error is raised (none models the ill-typed raise when the retry budget
was zero). -/
def fetchRetryGo (oracle : Nat → Except FetchErr Json) :
    Nat → Nat → Option FetchErr → Except (Option FetchErr) Json
  | _, 0, last => .error last
  | attempt, remaining + 1, _ =>
    match oracle attempt with
    | .ok d => .ok d
    | .error e =>
      match e with
      | .http c =>
        if httpRetryable c then fetchRetryGo oracle (attempt + 1) remaining (some (.http c))
        else .error (some (.http c))
      | .url => fetchRetryGo oracle (attempt + 1) remaining (some .url)
      | .jsonDecode => fetchRetryGo oracle (attempt + 1) remaining (some .jsonDecode)

/-- Source fetch_detail_with_retry with its retry budget (default 3
attempts); the backoff sleep has no observable effect on the result. -/
def fetchDetailWithRetry (oracle : Nat → Except FetchErr Json) (retries : Nat) :
    Except (Option FetchErr) Json :=
  fetchRetryGo oracle 1 retries none

/-- Oracle for C2: the first attempt yields a malformed (non-JSON)
body, the second succeeds. -/
def c2oracle : Nat → Except FetchErr Json :=
  fun a => if a = 1 then .error .jsonDecode else .ok (.obj [])

/-- C2, counterexample: a malformed response body on the first attempt
does not propagate — the fetcher retries and returns the second
attempt's document, refuting immediate propagation for non-HTTP
failures. -/
theorem c2_counterexample :
    c2oracle 1 = .error .jsonDecode ∧
    fetchDetailWithRetry c2oracle 3 = .ok (.obj []) := by
  constructor
  · decide
  · decide

/-- C2, amended: the fetcher retries exactly the failures of
isRetryableFailure — HTTP status 429 or 5xx, connection-level URLError, and a
malformed (non-JSON) response body — and any other HTTP status
propagates immediately without a further attempt. -/
theorem c2_amended (o : Nat → Except FetchErr Json) (e : FetchErr) (d : Json)
    (h1 : o 1 = .error e) :
    (isRetryableFailure e = true → o 2 = .ok d → fetchDetailWithRetry o 3 = .ok d) ∧
    (isRetryableFailure e = false → fetchDetailWithRetry o 3 = .error (some e)) := by
  constructor
  · intro hr h2
    cases e with
    | http c =>
      have hc : httpRetryable c = true := hr
      simp [fetchDetailWithRetry, fetchRetryGo, h1, h2, hc]
    | url => simp [fetchDetailWithRetry, fetchRetryGo, h1, h2]
    | jsonDecode => simp [fetchDetailWithRetry, fetchRetryGo, h1, h2]
  · intro hr
    cases e with
    | http c =>
      have hc : httpRetryable c = false := hr
      simp [fetchDetailWithRetry, fetchRetryGo, h1, hc]
    | url => cases hr
    | jsonDecode => cases hr

theorem c2_amended_witness :
    fetchDetailWithRetry (fun a => if a = 1 then .error .url else .ok .null) 3 = .ok .null :=
  (c2_amended (fun a => if a = 1 then .error .url else .ok .null) .url .null
    (by decide)).1 (by decide) (by decide)

/-- Python isinstance(x, int), under which booleans are integers. -/
def isPyInt : Json → Bool
  | .num _ => true
  | .bool _ => true
  | _ => false

/-- Baseline scan of main over the parsed baseline seed file: for each
dict entry, a string name with an integer rarity feeds the
rarity-by-name map and a string name with a truthy id feeds the
id-by-name map; a non-dict entry raises AttributeError. -/
def baselineGo : List Json → List (String × Json) → List (String × Json) →
    Except PyErr (List (String × Json) × List (String × Json))
  | [], rbn, ibn => .ok (rbn, ibn)
  | item :: t, rbn, ibn =>
    match item with
    | .obj im =>
      let name := (dictLookup im "name").getD .null
      let rarity := (dictLookup im "rarity").getD .null
      let idv := (dictLookup im "id").getD .null
      let rbn2 :=
        match name with
        | .str s => if isPyInt rarity then dictInsert rbn s rarity else rbn
        | _ => rbn
      let ibn2 :=
        match name with
        | .str s => if truthy idv then dictInsert ibn s idv else ibn
        | _ => ibn
      baselineGo t rbn2 ibn2
    | _ => .error .crash

/-- Baseline Identity Table ingestion of main: a non-list payload
leaves both maps empty (as does a missing or malformed file). -/
def buildBaselineMaps (base : Json) :
    Except PyErr (List (String × Json) × List (String × Json)) :=
  match base with
  | .arr items => baselineGo items [] []
  | _ => .ok ([], [])

/-- Enumeration indexing of main: avatar, rarity and name of each entry
are recorded under the stringified identifier; entries whose identifier
is None (only None) are skipped; a non-dict entry raises
AttributeError. -/
def idMapsGo : List Json → List (String × Json) → List (String × Json) →
    List (String × Json) →
    Except PyErr (List (String × Json) × List (String × Json) × List (String × Json))
  | [], a, r, n => .ok (a, r, n)
  | item :: t, a, r, n =>
    match item with
    | .obj im =>
      let cid := (dictLookup im "character_id").getD .null
      if cid = .null then idMapsGo t a r n
      else
        let k := pyStr cid
        idMapsGo t (dictInsert a k ((dictLookup im "character_avatar").getD .null))
          (dictInsert r k ((dictLookup im "rarity").getD .null))
          (dictInsert n k ((dictLookup im "character_name").getD .null))
    | _ => .error .crash

/-- Lookup tables of main before the processing loop. -/
structure Maps where
  rarityByName : List (String × Json)
  idByName : List (String × Json)
  avatarById : List (String × Json)
  rarityById : List (String × Json)
  nameById : List (String × Json)
deriving DecidableEq

/-- Map construction phase of main, in source order. -/
def mkMaps (base : Json) (characters : List Json) : Except PyErr Maps := do
  let bn ← buildBaselineMaps base
  let an ← idMapsGo characters [] [] []
  pure ⟨bn.1, bn.2, an.1, an.2.1, an.2.2⟩

/-- Python dict.get on a string-keyed dict with an arbitrary key
object: a non-string hashable key misses, an unhashable key raises
TypeError. -/
def pyDictGetStrKeys (m : List (String × Json)) (k : Json) :
    Except PyErr (Option Json) :=
  match k with
  | .str s => .ok (dictLookup m s)
  | .arr _ => .error .crash
  | .obj _ => .error .crash
  | _ => .ok none

/-- Python int() on the rarity value: integers and booleans convert, a
numeric string parses (ValueError otherwise), a container raises
TypeError. -/
def pyInt : Json → Except PyErr Int
  | .num n => .ok n
  | .bool b => .ok (if b then 1 else 0)
  | .str s =>
    let t := (pyStrip s).toList
    match t with
    | '-' :: ds =>
      if !ds.isEmpty && ds.all Char.isDigit then
        .ok (-(ds.foldl (fun a d => a * 10 + (d.toNat - 48)) 0 : Nat))
      else .error .ve
    | '+' :: ds =>
      if !ds.isEmpty && ds.all Char.isDigit then
        .ok ((ds.foldl (fun a d => a * 10 + (d.toNat - 48)) 0 : Nat))
      else .error .ve
    | ds =>
      if !ds.isEmpty && ds.all Char.isDigit then
        .ok ((ds.foldl (fun a d => a * 10 + (d.toNat - 48)) 0 : Nat))
      else .error .ve
  | _ => .error .crash

def elementMap : List (String × String) :=
  [("火", "PYRO"), ("水", "HYDRO"), ("风", "ANEMO"), ("雷", "ELECTRO"),
   ("草", "DENDRO"), ("冰", "CRYO"), ("岩", "GEO")]

def weaponMap : List (String × String) :=
  [("单手剑", "SWORD"), ("双手剑", "CLAYMORE"), ("长柄武器", "POLEARM"),
   ("弓", "BOW"), ("弓箭", "BOW"), ("法器", "CATALYST")]

/-- Canonical Record assembled by main for one identifier. -/
structure SeedItem where
  id : Json
  name : Json
  element : Option String
  weaponType : Option String
  rarity : Option Int
  region : String
  affiliation : String
  visionAffiliation : String
  role : String
  talents : List (Json × String)
  constellations : List (Json × String)
  imageUrl : Option Json
deriving DecidableEq

/-- Record assembly of main (source lines building seed_item), in
Python evaluation order: category translation, rarity resolution with
short-circuit over enumeration rarity then baseline rarity, the
identifier lookup, then int() on the resolved rarity. -/
def assembleSeed (m : Maps) (cid : Json) (f : Fields) (name : Json) :
    Except PyErr SeedItem :=
  let element := dictLookup elementMap f.element
  let weapon := dictLookup weaponMap f.weapon
  let rbid := (dictLookup m.rarityById (pyStr cid)).getD .null
  match (if truthy rbid then .ok rbid
         else match pyDictGetStrKeys m.rarityByName name with
           | .ok rbnm => .ok (rbnm.getD .null)
           | .error e => .error e : Except PyErr Json) with
  | .error e => .error e
  | .ok rarityJ =>
    match pyDictGetStrKeys m.idByName name with
    | .error e => .error e
    | .ok idv =>
      match (if rarityJ = .null then .ok none
             else match pyInt rarityJ with
               | .ok n => .ok (some n)
               | .error e => .error e : Except PyErr (Option Int)) with
      | .error e => .error e
      | .ok rarity =>
        .ok ⟨pyOr (idv.getD .null) (.str (pyStr cid)), name, element, weapon, rarity,
             f.region, f.affiliation, f.visionAffiliation, f.position,
             f.talents, f.constellations, dictLookup m.avatarById (pyStr cid)⟩

/-- Outcome of one iteration of main's processing loop. -/
inductive StepRes where
  | skip : StepRes
  | emit (r : SeedItem) : StepRes
  | fail (cid : Json) : StepRes
  | crash : StepRes
deriving DecidableEq

/-- One iteration of main's loop: falsy identifiers are skipped; a
fetch failure of any caught class records the identifier; extraction
runs, a missing display name (extracted name falsy and enumeration name
falsy) raises the caught ValueError; the record is assembled, ValueError
from int() is caught, the uncaught error classes abort the batch. -/
def step (m : Maps) (fetch : Json → Except FetchErr Json) (item : Json) : StepRes :=
  match item with
  | .obj im =>
    let cid := (dictLookup im "character_id").getD .null
    if truthy cid = false then .skip
    else
      match fetch cid with
      | .error _ => .fail cid
      | .ok data =>
        match extractFields data with
        | .error .ve => .fail cid
        | .error .crash => .crash
        | .ok f =>
          let nb := (dictLookup m.nameById (pyStr cid)).getD .null
          let name := pyOr f.name nb
          if truthy name = false then .fail cid
          else
            match assembleSeed m cid f name with
            | .ok r => .emit r
            | .error .ve => .fail cid
            | .error .crash => .crash
  | _ => .crash

/-- Processing loop of main: successes append to the result collection,
caught failures append the identifier to the failure list, and an
uncaught error aborts the whole batch before anything is written. -/
def mainLoop (m : Maps) (fetch : Json → Except FetchErr Json) :
    List Json → Except PyErr (List SeedItem × List Json)
  | [] => .ok ([], [])
  | item :: rest =>
    match step m fetch item with
    | .skip => mainLoop m fetch rest
    | .emit r =>
      match mainLoop m fetch rest with
      | .ok (rs, fs) => .ok (r :: rs, fs)
      | .error e => .error e
    | .fail c =>
      match mainLoop m fetch rest with
      | .ok (rs, fs) => .ok (rs, c :: fs)
      | .error e => .error e
    | .crash => .error .crash

/-- Source main: maps from the baseline payload and the enumeration
list, then the processing loop over the same enumeration list. -/
def mainRun (base : Json) (characters : List Json)
    (fetch : Json → Except FetchErr Json) :
    Except PyErr (List SeedItem × List Json) := do
  let m ← mkMaps base characters
  mainLoop m fetch characters

def emptyMaps : Maps := ⟨[], [], [], [], []⟩

theorem exBind_ok {ε α β : Type} (x : Except ε α) (g : α → Except ε β) (b : β)
    (h : x >>= g = .ok b) : ∃ a, x = .ok a ∧ g a = .ok b := by
  cases x with
  | ok a => exact ⟨a, rfl, h⟩
  | error e => simp [Bind.bind, Except.bind] at h

theorem assembleSeed_name (m : Maps) (cid : Json) (f : Fields) (name : Json)
    (r : SeedItem) (h : assembleSeed m cid f name = .ok r) : r.name = name := by
  unfold assembleSeed at h
  by_cases ht : truthy ((dictLookup m.rarityById (pyStr cid)).getD Json.null) = true
  · simp only [if_pos ht] at h
    cases h2 : pyDictGetStrKeys m.idByName name with
    | error e => simp [h2] at h
    | ok idv =>
      simp only [h2] at h
      by_cases hn : ((dictLookup m.rarityById (pyStr cid)).getD Json.null) = Json.null
      · simp only [if_pos hn] at h
        cases h
        rfl
      · simp only [if_neg hn] at h
        cases h3 : pyInt ((dictLookup m.rarityById (pyStr cid)).getD Json.null) with
        | error e => simp [h3] at h
        | ok n =>
          simp only [h3] at h
          cases h
          rfl
  · simp only [if_neg ht] at h
    cases h4 : pyDictGetStrKeys m.rarityByName name with
    | error e => simp [h4] at h
    | ok rbnm =>
      simp only [h4] at h
      cases h2 : pyDictGetStrKeys m.idByName name with
      | error e => simp [h2] at h
      | ok idv =>
        simp only [h2] at h
        by_cases hn : (rbnm.getD Json.null) = Json.null
        · simp only [if_pos hn] at h
          cases h
          rfl
        · simp only [if_neg hn] at h
          cases h3 : pyInt (rbnm.getD Json.null) with
          | error e => simp [h3] at h
          | ok n =>
            simp only [h3] at h
            cases h
            rfl

theorem assembleSeed_str_spec (m : Maps) (cid : Json) (f : Fields) (s : String)
    (r : SeedItem) (h : assembleSeed m cid f (.str s) = .ok r) :
    r.name = .str s ∧
    r.id = pyOr ((dictLookup m.idByName s).getD .null) (.str (pyStr cid)) ∧
    (dictLookup m.rarityByName s = none → r.rarity ≠ none →
      truthy ((dictLookup m.rarityById (pyStr cid)).getD .null) = true) := by
  unfold assembleSeed at h
  simp only [pyDictGetStrKeys] at h
  by_cases ht : truthy ((dictLookup m.rarityById (pyStr cid)).getD Json.null) = true
  · simp only [if_pos ht] at h
    by_cases hn : ((dictLookup m.rarityById (pyStr cid)).getD Json.null) = Json.null
    · simp only [if_pos hn] at h
      cases h
      exact ⟨rfl, rfl, fun _ _ => ht⟩
    · simp only [if_neg hn] at h
      cases h3 : pyInt ((dictLookup m.rarityById (pyStr cid)).getD Json.null) with
      | error e => simp [h3] at h
      | ok n =>
        simp only [h3] at h
        cases h
        exact ⟨rfl, rfl, fun _ _ => ht⟩
  · simp only [if_neg ht] at h
    by_cases hn : ((dictLookup m.rarityByName s).getD Json.null) = Json.null
    · simp only [if_pos hn] at h
      cases h
      refine ⟨rfl, rfl, ?_⟩
      intro _ hrar
      exact absurd rfl hrar
    · simp only [if_neg hn] at h
      cases h3 : pyInt ((dictLookup m.rarityByName s).getD Json.null) with
      | error e => simp [h3] at h
      | ok n =>
        simp only [h3] at h
        cases h
        refine ⟨rfl, rfl, ?_⟩
        intro hrb _
        rw [hrb] at hn
        exact absurd rfl hn

theorem step_emit_spec (m : Maps) (fetch : Json → Except FetchErr Json) (item : Json)
    (r : SeedItem) (h : step m fetch item = .emit r) :
    ∃ im d f, item = .obj im ∧
      truthy ((dictLookup im "character_id").getD .null) = true ∧
      fetch ((dictLookup im "character_id").getD .null) = .ok d ∧
      extractFields d = .ok f ∧
      truthy (pyOr f.name ((dictLookup m.nameById
        (pyStr ((dictLookup im "character_id").getD .null))).getD .null)) = true ∧
      assembleSeed m ((dictLookup im "character_id").getD .null) f
        (pyOr f.name ((dictLookup m.nameById
          (pyStr ((dictLookup im "character_id").getD .null))).getD .null)) = .ok r := by
  cases item with
  | obj im =>
    refine ⟨im, ?_⟩
    simp only [step] at h
    by_cases h1 : truthy ((dictLookup im "character_id").getD .null) = false
    · simp [if_pos h1] at h
    · simp only [if_neg h1] at h
      cases h2 : fetch ((dictLookup im "character_id").getD .null) with
      | error e => simp [h2] at h
      | ok d =>
        simp only [h2] at h
        cases h3 : extractFields d with
        | error e => cases e <;> simp [h3] at h
        | ok f =>
          simp only [h3] at h
          by_cases h4 : truthy (pyOr f.name ((dictLookup m.nameById
              (pyStr ((dictLookup im "character_id").getD .null))).getD .null)) = false
          · simp [if_pos h4] at h
          · simp only [if_neg h4] at h
            cases h5 : assembleSeed m ((dictLookup im "character_id").getD .null) f
                (pyOr f.name ((dictLookup m.nameById
                  (pyStr ((dictLookup im "character_id").getD .null))).getD .null)) with
            | error e => cases e <;> simp [h5] at h
            | ok r2 =>
              simp only [h5] at h
              cases h
              exact ⟨d, f, rfl, by simpa using h1, rfl, h3, by simpa using h4, h5⟩
  | null => cases h
  | bool b => cases h
  | num n => cases h
  | str s => cases h
  | arr l => cases h

/-- C1, amended: every emitted Canonical Record carries a truthy
(non-empty) display name, and when the name extracted from the fetched
document is falsy the loop falls back to the enumeration entry's
recorded name — only when both are falsy is the identifier recorded as
failed with no record emitted.  The original claim restricted the
resolved name to the fetched document's extraction, which the fallback
refutes. -/
theorem c1_amended :
    (∀ (m : Maps) (fetch : Json → Except FetchErr Json) (item : Json) (r : SeedItem),
        step m fetch item = .emit r → truthy r.name = true) ∧
    (∀ (m : Maps) (fetch : Json → Except FetchErr Json) (im : List (String × Json))
        (d : Json) (f : Fields),
        truthy ((dictLookup im "character_id").getD .null) = true →
        fetch ((dictLookup im "character_id").getD .null) = .ok d →
        extractFields d = .ok f →
        truthy f.name = false →
        truthy ((dictLookup m.nameById
          (pyStr ((dictLookup im "character_id").getD .null))).getD .null) = false →
        step m fetch (.obj im) = .fail ((dictLookup im "character_id").getD .null)) := by
  constructor
  · intro m fetch item r h
    obtain ⟨im, d, f, _, _, _, _, hname, hasm⟩ := step_emit_spec m fetch item r h
    rw [assembleSeed_name _ _ _ _ _ hasm]
    exact hname
  · intro m fetch im d f h1 h2 h3 h4 h5
    simp [step, h1, h2, h3, pyOr, h4, h5]

theorem c1_amended_witness :
    step emptyMaps (fun _ => .ok (.obj [])) (.obj [("character_id", .num 1)]) =
      .fail (.num 1) := by
  have := c1_amended.2 emptyMaps (fun _ => .ok (.obj [])) [("character_id", .num 1)]
    (.obj []) ⟨.str "", "", "", "", "", "", "", [], []⟩
    (by decide) (by decide) (by decide) (by decide) (by decide)
  exact this

/-- Enumeration entry and fetched document for C1: the document
extracts an empty name, the enumeration entry supplies 菲谢尔. -/
def c1items : List Json :=
  [.obj [("character_id", .num 1), ("character_name", .str "菲谢尔")]]

/-- C1, counterexample: the fetched document resolves an empty display
name, yet a Canonical Record is emitted, its name taken from the
enumeration entry — refuting emission exactly when the name extracted
from the fetched document is non-empty. -/
theorem c1_counterexample :
    (exOk (extractFields (.obj []))).map Fields.name = some (.str "") ∧
    (exOk (mainRun (.arr []) c1items (fun _ => .ok (.obj [])))).map
      (fun p => (p.1.map SeedItem.name, p.2)) = some ([.str "菲谢尔"], []) := by
  constructor
  · decide
  · decide

theorem dictLookup_insert_eq_or {α β : Type} [DecidableEq α] (m : List (α × β))
    (k k2 : α) (v w : β) (h : dictLookup (dictInsert m k v) k2 = some w) :
    (k2 = k ∧ w = v) ∨ dictLookup m k2 = some w := by
  induction m with
  | nil =>
    simp only [dictInsert, dictLookup] at h
    by_cases hk : k = k2
    · rw [if_pos hk] at h
      cases h
      exact Or.inl ⟨hk.symm, rfl⟩
    · rw [if_neg hk] at h
      cases h
  | cons a t ih =>
    obtain ⟨k3, v3⟩ := a
    by_cases h3 : k3 = k
    · simp only [dictInsert, if_pos h3] at h
      by_cases h32 : k3 = k2
      · simp only [dictLookup, if_pos h32] at h ⊢
        cases h
        exact Or.inl ⟨(h32.symm.trans h3 : k2 = k), rfl⟩
      · simp only [dictLookup, if_neg h32] at h ⊢
        exact Or.inr h
    · simp only [dictInsert, if_neg h3] at h
      by_cases h32 : k3 = k2
      · simp only [dictLookup, if_pos h32] at h ⊢
        exact Or.inr h
      · simp only [dictLookup, if_neg h32] at h ⊢
        exact ih h

theorem baselineGo_id_truthy (items : List Json) :
    ∀ (rbn ibn : List (String × Json)) (p : List (String × Json) × List (String × Json)),
      baselineGo items rbn ibn = .ok p →
      (∀ s v, dictLookup ibn s = some v → truthy v = true) →
      ∀ s v, dictLookup p.2 s = some v → truthy v = true := by
  induction items with
  | nil =>
    intro rbn ibn p h hinv s v hl
    simp only [baselineGo] at h
    cases h
    exact hinv s v hl
  | cons item t ih =>
    intro rbn ibn p h hinv s v hl
    cases item with
    | obj im =>
      simp only [baselineGo] at h
      refine ih _ _ p h ?_ s v hl
      intro s2 v2 hl2
      cases hname : (dictLookup im "name").getD Json.null with
      | str s3 =>
        simp only [hname] at hl2
        by_cases hid : truthy ((dictLookup im "id").getD Json.null) = true
        · rw [if_pos hid] at hl2
          rcases dictLookup_insert_eq_or ibn s3 s2 _ v2 hl2 with ⟨_, hv⟩ | hold
          · rw [hv]
            exact hid
          · exact hinv s2 v2 hold
        · rw [if_neg hid] at hl2
          exact hinv s2 v2 hl2
      | null => simp only [hname] at hl2; exact hinv s2 v2 hl2
      | bool b => simp only [hname] at hl2; exact hinv s2 v2 hl2
      | num n => simp only [hname] at hl2; exact hinv s2 v2 hl2
      | arr l => simp only [hname] at hl2; exact hinv s2 v2 hl2
      | obj o => simp only [hname] at hl2; exact hinv s2 v2 hl2
    | null => simp [baselineGo] at h
    | bool b => simp [baselineGo] at h
    | num n => simp [baselineGo] at h
    | str s2 => simp [baselineGo] at h
    | arr l => simp [baselineGo] at h

theorem mkMaps_idByName_truthy (base : Json) (chars : List Json) (m : Maps)
    (h : mkMaps base chars = .ok m) :
    ∀ s v, dictLookup m.idByName s = some v → truthy v = true := by
  unfold mkMaps at h
  obtain ⟨bn, h1, h⟩ := exBind_ok _ _ _ h
  obtain ⟨an, h2, h⟩ := exBind_ok _ _ _ h
  simp only [pure, Except.pure] at h
  cases h
  intro s v hl
  unfold buildBaselineMaps at h1
  cases base with
  | arr items =>
    exact baselineGo_id_truthy items [] [] bn h1 (fun s2 v2 hl2 => by cases hl2) s v hl
  | null => cases h1; cases hl
  | bool b => cases h1; cases hl
  | num n => cases h1; cases hl
  | str s2 => cases h1; cases hl
  | obj o => cases h1; cases hl

/-- C6: for every emitted Canonical Record whose resolved display name
is the string s, the record's identifier equals the Baseline Identity
Table identifier for s when one exists (baseline identifiers are
recorded only when truthy, so the baseline value always wins over the
raw identifier); when no baseline entry for s exists (neither an
identifier nor a rarity entry), the identifier is the stringified raw
source identifier and rarity is absent unless the live enumeration
record supplied a truthy rarity for that identifier. -/
theorem c6_baseline_identity (base : Json) (characters : List Json) (m : Maps)
    (fetch : Json → Except FetchErr Json) (item : Json) (r : SeedItem) (s : String)
    (hm : mkMaps base characters = .ok m)
    (hs : step m fetch item = .emit r)
    (hname : r.name = .str s) :
    (∀ v, dictLookup m.idByName s = some v → r.id = v) ∧
    (dictLookup m.idByName s = none → dictLookup m.rarityByName s = none →
      r.id = .str (pyStr (Json.getN item "character_id")) ∧
      (r.rarity ≠ none →
        truthy ((dictLookup m.rarityById
          (pyStr (Json.getN item "character_id"))).getD .null) = true)) := by
  obtain ⟨im, d, f, hitem, hcid, hfetch, hext, htr, hasm⟩ := step_emit_spec m fetch item r hs
  subst hitem
  have hn : r.name = pyOr f.name ((dictLookup m.nameById
      (pyStr ((dictLookup im "character_id").getD .null))).getD .null) :=
    assembleSeed_name _ _ _ _ _ hasm
  rw [hname] at hn
  rw [← hn] at hasm
  obtain ⟨hrn, hrid, hrar⟩ := assembleSeed_str_spec m _ f s r hasm
  constructor
  · intro v hv
    have htv : truthy v = true := mkMaps_idByName_truthy base characters m hm s v hv
    rw [hrid, hv]
    simp [pyOr, htv]
  · intro hid hrb
    constructor
    · rw [hrid, hid]
      simp [pyOr, truthy, Json.getN]
    · intro hrr
      have := hrar hrb hrr
      simpa [Json.getN] using this

def c6base : Json :=
  .arr [.obj [("name", .str "A"), ("id", .str "xid"), ("rarity", .num 5)]]

def c6chars : List Json := [.obj [("character_id", .num 7)]]

def c6maps : Maps :=
  ⟨[("A", .num 5)], [("A", .str "xid")], [("7", .null)], [("7", .null)], [("7", .null)]⟩

def c6fetch : Json → Except FetchErr Json :=
  fun _ => .ok (.obj [("data", .obj [("page", .obj [("name", .str "A")])])])

def c6item : Json := .obj [("character_id", .num 7)]

def c6rec : SeedItem :=
  ⟨.str "xid", .str "A", none, none, some 5, "", "", "", "", [], [], some .null⟩

theorem c6_witness :
    dictLookup c6maps.idByName "A" = some (.str "xid") ∧ c6rec.id = .str "xid" := by
  refine ⟨by decide, ?_⟩
  exact (c6_baseline_identity c6base c6chars c6maps c6fetch c6item c6rec "A"
    (by decide) (by decide) (by decide)).1 (.str "xid") (by decide)

theorem step_fail_of_fetch_error (m : Maps) (fetch : Json → Except FetchErr Json)
    (item : Json) (e : FetchErr)
    (hc : truthy (Json.getN item "character_id") = true)
    (hf : fetch (Json.getN item "character_id") = .error e) :
    step m fetch item = .fail (Json.getN item "character_id") := by
  cases item with
  | obj im =>
    simp only [Json.getN] at hc hf ⊢
    simp [step, hc, hf]
  | null => simp [Json.getN, truthy] at hc
  | bool b => simp [Json.getN, truthy] at hc
  | num n => simp [Json.getN, truthy] at hc
  | str s => simp [Json.getN, truthy] at hc
  | arr l => simp [Json.getN, truthy] at hc

theorem mainLoop_cons (m : Maps) (fetch : Json → Except FetchErr Json) (item : Json)
    (rest : List Json) :
    mainLoop m fetch (item :: rest) =
      match step m fetch item with
      | .skip => mainLoop m fetch rest
      | .emit r =>
        match mainLoop m fetch rest with
        | .ok (rs, fs) => .ok (r :: rs, fs)
        | .error e => .error e
      | .fail c =>
        match mainLoop m fetch rest with
        | .ok (rs, fs) => .ok (rs, c :: fs)
        | .error e => .error e
      | .crash => .error .crash := rfl

/-- C7: an identifier whose fetch fails contributes no Canonical Record
and exactly one entry (its own identifier) to the failure list, and the
loop continues with the rest of the batch: the outputs for the
surrounding sublists compose unchanged around the single failure
entry. -/
theorem c7_fetch_failure_isolation (m : Maps) (fetch : Json → Except FetchErr Json)
    (l1 : List Json) (item : Json) (l2 : List Json) (r1 : List SeedItem)
    (f1 : List Json) (e : FetchErr)
    (h1 : mainLoop m fetch l1 = .ok (r1, f1))
    (hc : truthy (Json.getN item "character_id") = true)
    (hf : fetch (Json.getN item "character_id") = .error e) :
    mainLoop m fetch (l1 ++ item :: l2) =
      (mainLoop m fetch l2).map
        (fun p => (r1 ++ p.1, f1 ++ Json.getN item "character_id" :: p.2)) := by
  have hstep : step m fetch item = .fail (Json.getN item "character_id") :=
    step_fail_of_fetch_error m fetch item e hc hf
  induction l1 generalizing r1 f1 with
  | nil =>
    simp only [mainLoop] at h1
    cases h1
    rw [List.nil_append, mainLoop_cons]
    simp only [hstep]
    cases hl : mainLoop m fetch l2 with
    | ok p =>
      obtain ⟨rs, fs⟩ := p
      simp [Except.map]
    | error er => simp [Except.map]
  | cons a t ih =>
    rw [List.cons_append, mainLoop_cons]
    rw [mainLoop_cons] at h1
    cases hsa : step m fetch a with
    | skip =>
      simp only [hsa] at h1 ⊢
      exact ih r1 f1 h1
    | emit r =>
      simp only [hsa] at h1 ⊢
      cases hl : mainLoop m fetch t with
      | error er => simp [hl] at h1
      | ok p =>
        obtain ⟨rs, fs⟩ := p
        simp only [hl] at h1
        have hr : r :: rs = r1 ∧ fs = f1 := by simpa using h1
        obtain ⟨h1a, h1b⟩ := hr
        subst h1a
        subst h1b
        rw [ih rs fs hl]
        cases hl2 : mainLoop m fetch l2 with
        | ok p2 =>
          obtain ⟨rs2, fs2⟩ := p2
          simp [Except.map]
        | error er => simp [Except.map]
    | fail c =>
      simp only [hsa] at h1 ⊢
      cases hl : mainLoop m fetch t with
      | error er => simp [hl] at h1
      | ok p =>
        obtain ⟨rs, fs⟩ := p
        simp only [hl] at h1
        have hr : rs = r1 ∧ c :: fs = f1 := by simpa using h1
        obtain ⟨h1a, h1b⟩ := hr
        subst h1a
        subst h1b
        rw [ih rs fs hl]
        cases hl2 : mainLoop m fetch l2 with
        | ok p2 =>
          obtain ⟨rs2, fs2⟩ := p2
          simp [Except.map]
        | error er => simp [Except.map]
    | crash =>
      simp only [hsa] at h1
      cases h1

theorem c7_witness :
    mainLoop emptyMaps (fun _ => .error .url) [.obj [("character_id", .num 3)]] =
      .ok ([], [.num 3]) := by
  have := c7_fetch_failure_isolation emptyMaps (fun _ => .error .url) []
    (.obj [("character_id", .num 3)]) [] [] [] .url (by decide) (by decide) (by decide)
  simpa [mainLoop, Except.map, Json.getN] using this

/-- C9: an enumeration entry whose raw identifier is falsy is skipped
silently — the batch outputs are exactly those of the batch without the
entry, so it yields no record and no failure entry. -/
theorem c9_skip_falsy (m : Maps) (fetch : Json → Except FetchErr Json)
    (l1 : List Json) (item : Json) (l2 : List Json)
    (hobj : isDict item = true)
    (hc : truthy (Json.getN item "character_id") = false) :
    mainLoop m fetch (l1 ++ item :: l2) = mainLoop m fetch (l1 ++ l2) := by
  have hstep : step m fetch item = .skip := by
    cases item with
    | obj im =>
      simp only [Json.getN] at hc
      simp [step, hc]
    | null => cases hobj
    | bool b => cases hobj
    | num n => cases hobj
    | str s => cases hobj
    | arr l => cases hobj
  induction l1 with
  | nil =>
    rw [List.nil_append, List.nil_append, mainLoop_cons]
    simp only [hstep]
  | cons a t ih =>
    rw [List.cons_append, List.cons_append, mainLoop_cons, mainLoop_cons]
    cases hsa : step m fetch a with
    | skip =>
      simp only [hsa]
      exact ih
    | emit r =>
      simp only [hsa]
      rw [ih]
    | fail c =>
      simp only [hsa]
      rw [ih]
    | crash => simp only [hsa]

theorem c9_witness :
    mainLoop emptyMaps (fun _ => .ok .null) [.obj []] = .ok ([], []) := by
  have := c9_skip_falsy emptyMaps (fun _ => .ok .null) [] (.obj []) [] (by decide) (by decide)
  simpa [mainLoop] using this
